import Mathlib

/-!
Verification of the `filedestory` file-corruption tool (`src/main.py`).

The development shallowly embeds the program:
* bytes are `Nat` values (the code only ever stores values in `[0, 255]`),
  and a file is a `List Nat`;
* Python `int` arithmetic is `Int` (with `Int.fdiv` / `Int.fmod` for
  Python's floor division `//` and `%`);
* randomness is an explicit oracle: each call site receives a stream of
  natural numbers, and `random.randint(0, k)` consumes one stream value
  reduced modulo `k + 1`;
* the unbounded retry loop of `generate_random_byte_not_equal_to` is
  modelled with explicit fuel, returning `none` when the fuel runs out
  (which corresponds to the Python loop not having terminated yet);
* `raise` is modelled with `Except` / an explicit error field.
-/

deriving instance DecidableEq for Except

/-- Model of `random.randint(0, k)` (uniform on `[0, k]`, `k ≥ 0` at every
call site of the program): one oracle value `r` reduced into the range. -/
def randint_draw (r : Nat) (k : Int) : Int :=
  ((r % (k.toNat + 1) : Nat) : Int)

/-- Embeds `generate_random_byte_not_equal_to` (main.py lines 31-37) for a
one-byte argument, which is the only way the program calls it: repeatedly
draw a byte and return the first draw different from `original`.  The
Python `while True` loop is given explicit fuel; `none` means the loop has
not terminated within `fuel` draws. -/
def generate_random_byte_not_equal_to (original : Nat) (draws : Nat → Nat) :
    Nat → Option Nat
  | 0 => none
  | Nat.succ fuel =>
    let b := draws 0 % 256
    if b ≠ original then some b
    else generate_random_byte_not_equal_to original (fun i => draws (i + 1)) fuel

/-- Helper for `mutate_bytes`: mutates the suffix of the slice starting at
byte index `j`; byte `j` uses the draw stream `om j`. -/
def mutate_go (fuel : Nat) (om : Nat → Nat → Nat) : Nat → List Nat → Option (List Nat)
  | _, [] => some []
  | j, x :: xs =>
    match generate_random_byte_not_equal_to x (om j) fuel, mutate_go fuel om (j + 1) xs with
    | some b, some bs => some (b :: bs)
    | _, _ => none

/-- Embeds the byte mutator of `corrupt_file` (main.py lines 176-177):
`b''.join([generate_random_byte_not_equal_to(bytes([b])) for b in original_bytes])`.
Each byte of the slice is replaced by a fresh draw different from it. -/
def mutate_bytes (fuel : Nat) (om : Nat → Nat → Nat) (xs : List Nat) : Option (List Nat) :=
  mutate_go fuel om 0 xs

/-- Embeds `protect_region_check` (main.py lines 91-109).  `r` is the
oracle value consumed by the `random.randint` call.  `Except.error`
models the `ValueError` raised for files of at most 2048 bytes. -/
def protect_region_check (file_size pos destroy_count : Int) (r : Nat) :
    Except String (Int × Int) :=
  let safe_start : Int := 1024
  let safe_end : Int := file_size - 1024
  if safe_end ≤ safe_start then
    Except.error "file too small"
  else if pos < safe_start ∨ safe_end ≤ pos then
    Except.ok (0, 0)
  else
    let start := pos
    let stop := min (pos + 1024) safe_end
    let available_range := stop - start
    if available_range ≤ 0 then
      Except.ok (0, 0)
    else
      let destroy_here := min destroy_count available_range
      let actual_start :=
        if 0 < destroy_here then start + randint_draw r (available_range - destroy_here)
        else start
      Except.ok (actual_start, destroy_here)

/-- Window start offset of step `i` in `corrupt_file` (main.py line 166):
`current_pos = 1024 + step_idx * step_bytes`. -/
def window_start (step_bytes : Int) (step_idx : Nat) : Int :=
  1024 + (step_idx : Int) * step_bytes

/-- Number of steps of the walk (main.py lines 127-129):
floor division of `file_size - 2048` by `step_bytes`, plus one when the
division leaves a remainder. -/
def total_steps (file_size step_bytes : Int) : Int :=
  let q := (file_size - 2048).fdiv step_bytes
  if (file_size - 2048).fmod step_bytes ≠ 0 then q + 1 else q

/-- Errors a run of `corrupt_file` can surface. -/
inductive RunError where
  /-- the `ValueError` raised by `protect_region_check` -/
  | invalidInput (msg : String)
  /-- the `ZeroDivisionError` raised when computing `total_steps` with a
  zero step size -/
  | divByZero
  /-- the per-byte retry loop of the mutator has not terminated within the
  provided fuel -/
  | mutatorDiverged
  deriving DecidableEq, Repr

/-- In-place write of `new_bytes` at byte offset `pos` (the program only
ever writes with `pos + new_bytes.length ≤ f.length`). -/
def write_at (f : List Nat) (pos : Nat) (new_bytes : List Nat) : List Nat :=
  f.take pos ++ new_bytes ++ f.drop (pos + new_bytes.length)

/-- One iteration of the walk loop of `corrupt_file` (main.py lines
186-199): plan the window, and if any bytes are designated, read them,
mutate them, and write the result back at the same offset. -/
def corrupt_step (file_size destroy_bytes step_bytes : Int) (rp : Nat)
    (om : Nat → Nat → Nat) (fuel : Nat) (f : List Nat) (k : Nat) :
    Except RunError (List Nat) :=
  match protect_region_check file_size (window_start step_bytes k) destroy_bytes rp with
  | Except.error m => Except.error (RunError.invalidInput m)
  | Except.ok (actual_pos, num_to_corrupt) =>
    if num_to_corrupt ≤ 0 then Except.ok f
    else
      let original_bytes := (f.drop actual_pos.toNat).take num_to_corrupt.toNat
      match mutate_bytes fuel om original_bytes with
      | none => Except.error RunError.mutatorDiverged
      | some new_bytes => Except.ok (write_at f actual_pos.toNat new_bytes)

/-- Runs `n` consecutive walk iterations starting at step index `k`,
returning the (possibly partially mutated) file contents together with the
error that aborted the walk, if any. -/
def run_from (file_size destroy_bytes step_bytes : Int) (oP : Nat → Nat)
    (oM : Nat → Nat → Nat → Nat) (fuel : Nat) :
    Nat → Nat → List Nat → List Nat × Option RunError
  | _, 0, f => (f, none)
  | k, Nat.succ n, f =>
    match corrupt_step file_size destroy_bytes step_bytes (oP k) (oM k) fuel f k with
    | Except.ok f2 => run_from file_size destroy_bytes step_bytes oP oM fuel (k + 1) n f2
    | Except.error e => (f, some e)

/-- Observable outcome of one `corrupt_file` run. -/
structure RunOutcome where
  /-- contents of the backup file, when one was created -/
  backup : Option (List Nat)
  /-- contents of the target file after the run -/
  file : List Nat
  /-- the error that ended the run, if any -/
  error : Option RunError
  deriving DecidableEq, Repr

/-- Embeds `corrupt_file` (main.py lines 115-208).  The file size is taken
from the contents, as `file_path.stat().st_size` does.  Note the order of
effects, faithful to the source: `total_steps` is computed (and a zero
step size raises `ZeroDivisionError`) on lines 126-129, BEFORE the backup
copy is made on lines 131-146; the walk follows.  The backup copy is
modelled as succeeding (its failure path goes through interactive I/O that
is outside this embedding). -/
def corrupt_file (f : List Nat) (step_kb destroy_bytes : Int) (make_backup : Bool)
    (oP : Nat → Nat) (oM : Nat → Nat → Nat → Nat) (fuel : Nat) : RunOutcome :=
  let file_size : Int := f.length
  let step_bytes : Int := step_kb * 1024
  if step_bytes = 0 then
    { backup := none, file := f, error := some RunError.divByZero }
  else
    let steps := (total_steps file_size step_bytes).toNat
    let backup := if make_backup then some f else none
    let result := run_from file_size destroy_bytes step_bytes oP oM fuel 0 steps f
    { backup := backup, file := result.1, error := result.2 }

/-- Python `str.strip()` on a list of characters. -/
def pystrip (cs : List Char) : List Char :=
  ((cs.dropWhile Char.isWhitespace).reverse.dropWhile Char.isWhitespace).reverse

/-- Python `str.upper()` on a list of characters (ASCII is all the program
feeds it). -/
def pyupper (cs : List Char) : List Char :=
  cs.map Char.toUpper

/-- Numeric value of a list of decimal digits. -/
def digits_value (ds : List Char) : Nat :=
  ds.foldl (fun a c => a * 10 + (c.toNat - 48)) 0

/-- Value of a Python decimal literal made of digits and at most one dot,
as `float(num)` computes it (main.py line 52), represented exactly as a
scaled pair: `some (n, k)` stands for the rational `n / 10 ^ k`.  Exact
decimal arithmetic stands in for binary floating point; the two agree on
every literal the verified claims touch (integral values).  `none` models
the `ValueError` of `float` on an invalid literal (no digits, or several
dots). -/
def decimal_scaled (cs : List Char) : Option (Nat × Nat) :=
  if (cs.all fun c => c.isDigit || c == '.') &&
      ((cs.filter fun c => c == '.').length ≤ 1) &&
      (cs.any fun c => c.isDigit) then
    let ip := cs.takeWhile fun c => c != '.'
    let fp := (cs.dropWhile fun c => c != '.').tail
    some (digits_value (ip ++ fp), fp.length)
  else
    none

/-- The `num` accumulator of `parse_size_str` (main.py lines 42-51): the
leading run of digits and dots of the stripped, uppercased input, with
`'1'` substituted when that run is empty. -/
def size_num_of (s : String) : List Char :=
  let cs := pyupper (pystrip s.data)
  let num := cs.takeWhile fun c => c.isDigit || c == '.'
  if num.isEmpty then ['1'] else num

/-- The `unit` of `parse_size_str` (main.py lines 43-49): the input from
the first non-digit, non-dot character on, defaulting to `"KB"`.  In the
source the suffix is recovered as `s[s.index(c):]`; because every
character before the break is a digit or a dot and `c` is neither, the
first occurrence of `c` in `s` is exactly the break position, so the
suffix is `dropWhile`. -/
def size_unit_of (s : String) : List Char :=
  let cs := pyupper (pystrip s.data)
  let rest := cs.dropWhile fun c => c.isDigit || c == '.'
  if rest.isEmpty then ['K', 'B'] else rest

/-- Embeds `parse_size_str` (main.py lines 39-58).  With the literal's
value given exactly as `n / 10 ^ k`, Python's `int(num_f * 1024)` (which
truncates the nonnegative value toward zero) is the floor division
`n * 1024 / 10 ^ k` on naturals, and `int(num_f)` is `n / 10 ^ k`. -/
def parse_size_str (s : String) : Except String Int :=
  match decimal_scaled (size_num_of s) with
  | none => Except.error "invalid numeric literal"
  | some (n, k) =>
    if size_unit_of s = ['K', 'B'] then Except.ok ((n * 1024 / 10 ^ k : Nat) : Int)
    else if size_unit_of s = ['B'] then Except.ok ((n / 10 ^ k : Nat) : Int)
    else Except.error "unsupported step unit"

/-- Python `int(s)` on a string: optional sign and a nonempty run of
digits, surrounded by optional whitespace (digit-group underscores are not
modelled; no claim involves them).  `none` models `ValueError`. -/
def py_int_parse (s : String) : Option Int :=
  match pystrip s.data with
  | '-' :: ds =>
    if ds ≠ [] ∧ ds.all Char.isDigit then some (-(digits_value ds : Int)) else none
  | '+' :: ds =>
    if ds ≠ [] ∧ ds.all Char.isDigit then some ((digits_value ds : Int)) else none
  | ds =>
    if ds ≠ [] ∧ ds.all Char.isDigit then some ((digits_value ds : Int)) else none

/-- Embeds the step-argument resolution of `cli_main` (main.py lines
308-318): try `int(args.step)` first, treating a non-positive value as a
`ValueError`; on `ValueError` fall back to `parse_size_str(args.step) // 1024`.
Any failure of the fallback is the error path that exits with status 1. -/
def cli_step_kb (s : String) : Except String Int :=
  match py_int_parse s with
  | some k =>
    if k ≤ 0 then
      match parse_size_str s with
      | Except.ok n => Except.ok (n.fdiv 1024)
      | Except.error e => Except.error e
    else Except.ok k
  | none =>
    match parse_size_str s with
    | Except.ok n => Except.ok (n.fdiv 1024)
    | Except.error e => Except.error e

/-- The ways a whole process invocation can terminate, read off the
control flow of `cli_main`, `interactive_mode` and the `__main__` block
(main.py lines 291-365). -/
inductive TermEvent where
  /-- run completed; interpreter exits normally -/
  | completed
  /-- user declined the pre-run confirmation in `cli_main` (line 344: `sys.exit(0)`) -/
  | declinedConfirm
  /-- user declined after the `--no-backup` warning (line 330: `sys.exit(0)`) -/
  | declinedNoBackup
  /-- user declined the confirmation in `interactive_mode` (line 279: plain `return`) -/
  | interactiveDeclined
  /-- `KeyboardInterrupt` caught in `__main__` (line 362: `sys.exit(1)`) -/
  | keyboardInterrupt
  /-- target path does not exist (line 303: `sys.exit(1)`) -/
  | fileNotFound
  /-- target path is not a regular file (line 306: `sys.exit(1)`) -/
  | notAFile
  /-- step argument rejected (line 318: `sys.exit(1)`) -/
  | invalidStep
  /-- destroy argument rejected (line 323: `sys.exit(1)`) -/
  | invalidDestroy
  /-- exception inside `interactive_mode` (line 285: `sys.exit(1)`) -/
  | interactiveError
  /-- any other exception reaching `__main__` (line 365: `sys.exit(1)`) -/
  | uncaughtError
  deriving DecidableEq, Repr

/-- Process exit status for each termination path, transcribed from the
`sys.exit` calls cited on the `TermEvent` constructors. -/
def exit_code : TermEvent → Nat
  | TermEvent.completed => 0
  | TermEvent.declinedConfirm => 0
  | TermEvent.declinedNoBackup => 0
  | TermEvent.interactiveDeclined => 0
  | TermEvent.keyboardInterrupt => 1
  | TermEvent.fileNotFound => 1
  | TermEvent.notAFile => 1
  | TermEvent.invalidStep => 1
  | TermEvent.invalidDestroy => 1
  | TermEvent.interactiveError => 1
  | TermEvent.uncaughtError => 1

/-! ### Helper lemmas -/

theorem randint_draw_nonneg (r : Nat) (k : Int) : 0 ≤ randint_draw r k :=
  Int.ofNat_nonneg _

theorem randint_draw_le (r : Nat) {k : Int} (hk : 0 ≤ k) : randint_draw r k ≤ k := by
  have h1 : r % (k.toNat + 1) < k.toNat + 1 := Nat.mod_lt _ (Nat.succ_pos _)
  have h2 : (k.toNat : Int) = k := Int.toNat_of_nonneg hk
  unfold randint_draw
  omega

theorem generate_random_byte_ne {x b : Nat} :
    ∀ {fuel : Nat} {dr : Nat → Nat},
      generate_random_byte_not_equal_to x dr fuel = some b → b ≠ x := by
  intro fuel
  induction fuel with
  | zero =>
    intro dr h
    simp [generate_random_byte_not_equal_to] at h
  | succ n ih =>
    intro dr h
    simp only [generate_random_byte_not_equal_to] at h
    split at h
    · cases h; assumption
    · exact ih h

theorem mutate_go_length {fuel : Nat} {om : Nat → Nat → Nat} :
    ∀ {xs ys : List Nat} {j : Nat}, mutate_go fuel om j xs = some ys →
      ys.length = xs.length := by
  intro xs
  induction xs with
  | nil =>
    intro ys j h
    simp only [mutate_go, Option.some.injEq] at h
    simp [← h]
  | cons x xs ih =>
    intro ys j h
    simp only [mutate_go] at h
    cases hg : generate_random_byte_not_equal_to x (om j) fuel with
    | none => rw [hg] at h; cases h
    | some b =>
      cases hm : mutate_go fuel om (j + 1) xs with
      | none => rw [hg, hm] at h; cases h
      | some bs =>
        rw [hg, hm] at h
        cases h
        simp [ih hm]

theorem mutate_go_ne {fuel : Nat} {om : Nat → Nat → Nat} :
    ∀ {xs ys : List Nat} {j : Nat}, mutate_go fuel om j xs = some ys →
      List.Forall₂ (fun a b => a ≠ b) ys xs := by
  intro xs
  induction xs with
  | nil =>
    intro ys j h
    simp only [mutate_go, Option.some.injEq] at h
    simp [← h]
  | cons x xs ih =>
    intro ys j h
    simp only [mutate_go] at h
    cases hg : generate_random_byte_not_equal_to x (om j) fuel with
    | none => rw [hg] at h; cases h
    | some b =>
      cases hm : mutate_go fuel om (j + 1) xs with
      | none => rw [hg, hm] at h; cases h
      | some bs =>
        rw [hg, hm] at h
        cases h
        exact List.Forall₂.cons (generate_random_byte_ne hg) (ih hm)

theorem write_at_length {f nb : List Nat} {p : Nat} (h : p + nb.length ≤ f.length) :
    (write_at f p nb).length = f.length := by
  simp only [write_at, List.length_append, List.length_take, List.length_drop]
  omega

theorem write_at_getElem_lt {f nb : List Nat} {p i : Nat} (hp : p ≤ f.length)
    (hi : i < p) : (write_at f p nb)[i]? = f[i]? := by
  unfold write_at
  rw [List.append_assoc, List.getElem?_append_left (by simp; omega),
    List.getElem?_take_of_lt hi]

theorem write_at_getElem_ge {f nb : List Nat} {p i : Nat} (hp : p ≤ f.length)
    (hi : p + nb.length ≤ i) : (write_at f p nb)[i]? = f[i]? := by
  unfold write_at
  have htk : (f.take p).length = p := by simp [List.length_take]; omega
  rw [List.append_assoc, List.getElem?_append_right (by rw [htk]; omega),
    List.getElem?_append_right (by rw [htk]; omega), List.getElem?_drop]
  congr 1
  rw [htk]
  omega

theorem protect_region_check_out_of_range {fs pos d : Int} (r : Nat)
    (hfs : 2048 < fs) (h : pos < 1024 ∨ fs - 1024 ≤ pos) :
    protect_region_check fs pos d r = Except.ok (0, 0) := by
  simp only [protect_region_check]
  rw [if_neg (by omega), if_pos h]

theorem protect_region_check_in_range {fs pos d : Int} (r : Nat)
    (hfs : 2048 < fs) (h1 : 1024 ≤ pos) (h2 : pos < fs - 1024) :
    protect_region_check fs pos d r =
      Except.ok
        (if 0 < min d (min (pos + 1024) (fs - 1024) - pos) then
            pos + randint_draw r ((min (pos + 1024) (fs - 1024) - pos) -
              min d (min (pos + 1024) (fs - 1024) - pos))
          else pos,
          min d (min (pos + 1024) (fs - 1024) - pos)) := by
  simp only [protect_region_check]
  rw [if_neg (by omega), if_neg (by omega), if_neg (by omega)]

theorem protect_region_check_ok_inv {fs pos d : Int} {r : Nat} {a c : Int}
    (h : protect_region_check fs pos d r = Except.ok (a, c)) :
    2048 < fs ∧ (c ≤ 0 ∨ (1024 ≤ pos ∧ pos ≤ a ∧ a + c ≤ fs - 1024 ∧ c ≤ d)) := by
  by_cases hfs : fs - 1024 ≤ 1024
  · simp only [protect_region_check, if_pos hfs] at h
    cases h
  · refine ⟨by omega, ?_⟩
    by_cases hp : pos < 1024 ∨ fs - 1024 ≤ pos
    · rw [protect_region_check_out_of_range r (by omega) hp] at h
      cases h
      exact Or.inl le_rfl
    · push_neg at hp
      rw [protect_region_check_in_range r (by omega) hp.1 hp.2] at h
      cases h
      by_cases hd : 0 < min d (min (pos + 1024) (fs - 1024) - pos)
      · refine Or.inr ⟨hp.1, ?_, ?_, by omega⟩ <;>
        · rw [if_pos hd]
          have hk : (0 : Int) ≤ (min (pos + 1024) (fs - 1024) - pos) -
              min d (min (pos + 1024) (fs - 1024) - pos) := by omega
          have ht0 := randint_draw_nonneg r ((min (pos + 1024) (fs - 1024) - pos) -
            min d (min (pos + 1024) (fs - 1024) - pos))
          have ht1 := randint_draw_le r hk
          omega
      · exact Or.inl (by omega)

theorem corrupt_step_ok_frame {fs d sb : Int} {rp : Nat} {om : Nat → Nat → Nat}
    {fuel : Nat} {f f2 : List Nat} {k : Nat} (hlen : (f.length : Int) = fs)
    (h : corrupt_step fs d sb rp om fuel f k = Except.ok f2) :
    f2.length = f.length ∧
      ∀ i : Nat, ((i : Int) < 1024 ∨ fs - 1024 ≤ (i : Int)) → f2[i]? = f[i]? := by
  unfold corrupt_step at h
  split at h
  · cases h
  · next a c heq =>
    split at h
    · cases h
      exact ⟨rfl, fun i _ => rfl⟩
    · next hc =>
      dsimp only [] at h
      split at h
      · cases h
      · next nb hm =>
        cases h
        obtain ⟨hfs, hinv⟩ := protect_region_check_ok_inv heq
        rcases hinv with hle | ⟨hpos, hpa, hac, hcd⟩
        · omega
        · have ha0 : 0 ≤ a := by omega
          have hc0 : 0 ≤ c := by omega
          have hanat : (a.toNat : Int) = a := Int.toNat_of_nonneg ha0
          have hcnat : (c.toNat : Int) = c := Int.toNat_of_nonneg hc0
          have hbound : a.toNat + c.toNat ≤ f.length := by omega
          have horig : ((f.drop a.toNat).take c.toNat).length = c.toNat := by
            simp only [List.length_take, List.length_drop]
            omega
          have hnb : nb.length = c.toNat := by rw [mutate_go_length hm, horig]
          refine ⟨write_at_length (by omega), fun i hi => ?_⟩
          rcases hi with hi | hi
          · exact write_at_getElem_lt (by omega) (by omega)
          · exact write_at_getElem_ge (by omega) (by omega)

theorem run_from_frame {fs d sb : Int} {oP : Nat → Nat} {oM : Nat → Nat → Nat → Nat}
    {fuel : Nat} :
    ∀ (n k : Nat) (f : List Nat), (f.length : Int) = fs →
      ((run_from fs d sb oP oM fuel k n f).1.length = f.length ∧
        ∀ i : Nat, ((i : Int) < 1024 ∨ fs - 1024 ≤ (i : Int)) →
          (run_from fs d sb oP oM fuel k n f).1[i]? = f[i]?) := by
  intro n
  induction n with
  | zero => exact fun k f _ => ⟨rfl, fun _ _ => rfl⟩
  | succ n ih =>
    intro k f hlen
    simp only [run_from]
    cases hs : corrupt_step fs d sb (oP k) (oM k) fuel f k with
    | error e => exact ⟨rfl, fun _ _ => rfl⟩
    | ok f2 =>
      obtain ⟨hl2, hg2⟩ := corrupt_step_ok_frame hlen hs
      have hlen2 : (f2.length : Int) = fs := by rw [hl2]; exact hlen
      obtain ⟨hl3, hg3⟩ := ih (k + 1) f2 hlen2
      exact ⟨by rw [hl3, hl2], fun i hi => by rw [hg3 i hi, hg2 i hi]⟩

/-! ### Claim theorems -/

/-- Claim C1: for every valid run (file size over 2048 bytes, positive step
size, positive destroy count), every byte of the target at an index in
`[0, 1024)` or `[fileSize - 1024, fileSize)` has the same value after the
run as before it — including runs the walk aborts midway. -/
theorem corrupt_file_preserves_protected_regions (f : List Nat)
    (step_kb destroy_bytes : Int) (make_backup : Bool) (oP : Nat → Nat)
    (oM : Nat → Nat → Nat → Nat) (fuel : Nat) (hsize : 2048 < f.length)
    (hstep : 0 < step_kb) (_hdestroy : 0 < destroy_bytes) (i : Nat)
    (hi : i < 1024 ∨ f.length - 1024 ≤ i) :
    (corrupt_file f step_kb destroy_bytes make_backup oP oM fuel).file[i]? = f[i]? := by
  simp only [corrupt_file]
  rw [if_neg (by omega)]
  exact (run_from_frame _ 0 f rfl).2 i (by omega)

/-- Witness for C1 at a concrete 2100-byte file. -/
theorem corrupt_file_preserves_protected_regions_witness :
    (corrupt_file (List.replicate 2100 0) 1 4 true (fun _ => 0)
        (fun _ _ _ => 1) 1).file[0]? = (List.replicate 2100 0)[0]? :=
  corrupt_file_preserves_protected_regions (List.replicate 2100 0) 1 4 true
    (fun _ => 0) (fun _ _ _ => 1) 1
    (by simp only [List.length_replicate]; decide) (by decide) (by decide) 0
    (Or.inl (by decide))

/-- Claim C2: whenever the byte mutator produces an output for an input
byte sequence, the output has identical length and every output byte
differs from the corresponding input byte. -/
theorem mutate_bytes_output_differs (xs : List Nat) (om : Nat → Nat → Nat)
    (fuel : Nat) (ys : List Nat) (h : mutate_bytes fuel om xs = some ys) :
    ys.length = xs.length ∧ List.Forall₂ (fun a b => a ≠ b) ys xs :=
  ⟨mutate_go_length h, mutate_go_ne h⟩

/-- Witness for C2 at the concrete input `[0, 255]`. -/
theorem mutate_bytes_output_differs_witness :
    ([7, 7] : List Nat).length = ([0, 255] : List Nat).length ∧
      List.Forall₂ (fun a b => a ≠ b) ([7, 7] : List Nat) [0, 255] :=
  mutate_bytes_output_differs [0, 255] (fun _ _ => 7) 1 [7, 7] (by decide)

/-- Claim C3, counterexample: with fileSize 10000, stepSizeBytes 2048,
windowStart 1024 and destroyCount 2000, the planner returns actualCount
1024, not `min destroyCount (min (windowStart + stepSizeBytes) safeEnd -
windowStart) = 2000`: its window length is not the configured step size. -/
theorem planner_window_cap_counterexample :
    protect_region_check 10000 1024 2000 0 = Except.ok (1024, 1024) ∧
      (1024 : Int) ≠ min 2000 (min (1024 + 2048) (10000 - 1024) - 1024) :=
  ⟨by decide, by decide⟩

/-- Claim C3 as amended: the planner's available length is
`min (windowStart + 1024) safeEnd - windowStart` — the window cap is the
fixed constant 1024 bytes (the default 1 KB step), independent of the
configured step size — and the returned actualCount is
`min destroyCount availableLength`. -/
theorem planner_available_length_fixed_cap (fs pos d : Int) (r : Nat)
    (hfs : 2048 < fs) (h1 : 1024 ≤ pos) (h2 : pos < fs - 1024) :
    ∃ a, protect_region_check fs pos d r =
      Except.ok (a, min d (min (pos + 1024) (fs - 1024) - pos)) := by
  rw [protect_region_check_in_range r hfs h1 h2]
  exact ⟨_, rfl⟩

/-- Witness for the amended C3 at fileSize 10000, windowStart 1024,
destroyCount 2000. -/
theorem planner_available_length_fixed_cap_witness :
    ∃ a, protect_region_check 10000 1024 2000 0 =
      Except.ok (a, min 2000 (min (1024 + 1024) (10000 - 1024) - 1024)) :=
  planner_available_length_fixed_cap 10000 1024 2000 0 (by decide) (by decide)
    (by decide)

/-- Claim C4: for fileSize over 2048 and positive destroyCount, the planner
never designates bytes outside the safe region: out-of-range window starts
get the `(0, 0)` sentinel, and in-range ones get `(actualStart, actualCount)`
with `windowStart ≤ actualStart`, `actualStart + actualCount ≤ safeEnd`,
`actualCount ≤ destroyCount`, and `actualStart - windowStart` between `0`
and `availableLength - actualCount`. -/
theorem planner_stays_in_safe_region (fs pos d : Int) (r : Nat)
    (hfs : 2048 < fs) (hd : 0 < d) :
    ((pos < 1024 ∨ fs - 1024 ≤ pos) →
        protect_region_check fs pos d r = Except.ok (0, 0)) ∧
      (1024 ≤ pos → pos < fs - 1024 →
        ∃ a c, protect_region_check fs pos d r = Except.ok (a, c) ∧
          pos ≤ a ∧ a + c ≤ fs - 1024 ∧ c ≤ d ∧ 0 ≤ a - pos ∧
          a - pos ≤ (min (pos + 1024) (fs - 1024) - pos) - c) := by
  constructor
  · exact fun h => protect_region_check_out_of_range r hfs h
  · intro h1 h2
    rw [protect_region_check_in_range r hfs h1 h2]
    have hdh : 0 < min d (min (pos + 1024) (fs - 1024) - pos) := by omega
    rw [if_pos hdh]
    have hk : (0 : Int) ≤ (min (pos + 1024) (fs - 1024) - pos) -
        min d (min (pos + 1024) (fs - 1024) - pos) := by omega
    have ht0 := randint_draw_nonneg r ((min (pos + 1024) (fs - 1024) - pos) -
      min d (min (pos + 1024) (fs - 1024) - pos))
    have ht1 := randint_draw_le r hk
    exact ⟨_, _, rfl, by omega, by omega, by omega, by omega, by omega⟩

/-- Witness for C4 at fileSize 5000, windowStart 1024, destroyCount 4. -/
theorem planner_stays_in_safe_region_witness :
    (((1024 : Int) < 1024 ∨ (5000 : Int) - 1024 ≤ 1024) →
        protect_region_check 5000 1024 4 3 = Except.ok (0, 0)) ∧
      ((1024 : Int) ≤ 1024 → (1024 : Int) < 5000 - 1024 →
        ∃ a c, protect_region_check 5000 1024 4 3 = Except.ok (a, c) ∧
          (1024 : Int) ≤ a ∧ a + c ≤ 5000 - 1024 ∧ c ≤ 4 ∧ 0 ≤ a - 1024 ∧
          a - 1024 ≤ (min (1024 + 1024) (5000 - 1024) - 1024) - c) :=
  planner_stays_in_safe_region 5000 1024 4 3 (by decide) (by decide)

/-- Claim C5 is a code bug: on a file of exactly 2048 bytes the walk
computes zero steps, so `protect_region_check` — the only place the
"file too small" `ValueError` is raised — is never called.  The run
completes without error, touches no byte, and still creates the backup,
contradicting both the spec and the intent of the unreachable error
branch.  This theorem evaluates the run at the failing input. -/
theorem corrupt_file_size_2048_silent_noop :
    corrupt_file (List.replicate 2048 0) 1 4 true (fun _ => 0) (fun _ _ _ => 0) 1 =
      { backup := some (List.replicate 2048 0), file := List.replicate 2048 0,
        error := none } := by
  simp only [corrupt_file, List.length_replicate]
  rw [if_neg (by decide : ¬(1 : Int) * 1024 = 0)]
  have hts : (total_steps ((2048 : Nat) : Int) ((1 : Int) * 1024)).toNat = 0 := by
    decide
  rw [hts]
  rfl

/-- Claim C6, counterexample: the CLI accepts step literal `"512B"` and
resolves it to `step_kb = 0`, and the run then fails with a
division-by-zero error — but with no backup created, because the failing
`total_steps` division precedes the backup block, contradicting the
claim's "after the backup has already been created". -/
theorem cli_step_512B_div_zero_counterexample :
    cli_step_kb "512B" = Except.ok 0 ∧
      (corrupt_file (List.replicate 3000 0) 0 4 true (fun _ => 0)
          (fun _ _ _ => 0) 1).error = some RunError.divByZero ∧
      (corrupt_file (List.replicate 3000 0) 0 4 true (fun _ => 0)
          (fun _ _ _ => 0) 1).backup = none :=
  ⟨by decide, rfl, rfl⟩

/-- Claim C6 as amended: the CLI accepts the byte-unit step literal
`"512B"`, resolving it to `step_kb = 0` without rejection, and
`corrupt_file` then fails with a division-by-zero error BEFORE the backup
is created (no backup, file untouched), rather than with
`InvalidInputError` before any I/O. -/
theorem cli_step_512B_div_by_zero_before_backup (f : List Nat) (d : Int)
    (mb : Bool) (oP : Nat → Nat) (oM : Nat → Nat → Nat → Nat) (fuel : Nat) :
    cli_step_kb "512B" = Except.ok 0 ∧
      corrupt_file f 0 d mb oP oM fuel =
        { backup := none, file := f, error := some RunError.divByZero } :=
  ⟨by decide, rfl⟩

/-- Claim C7: for every valid run the walk performs exactly
`ceil((fileSize - 2048) / stepSizeBytes)` steps (the loop bound
`total_steps` equals that ceiling and is positive, so the `toNat`
conversion in `corrupt_file` is lossless), the window start of step `i`
is `1024 + i * stepSizeBytes`, and in particular a 3000-byte file with a
1 KB step gets one single window starting at offset 1024. -/
theorem total_steps_ceil_and_window_start (fs sb : Int) (h1 : 2048 < fs)
    (h2 : 0 < sb) :
    total_steps fs sb = ⌈((fs - 2048 : Int) : ℚ) / ((sb : Int) : ℚ)⌉ ∧
      0 < total_steps fs sb ∧
      (∀ i : Nat, window_start sb i = 1024 + (i : Int) * sb) ∧
      total_steps 3000 1024 = 1 ∧ window_start 1024 0 = 1024 := by
  have hbq : (0 : ℚ) < ((sb : Int) : ℚ) := by exact_mod_cast h2
  have hdm := Int.fdiv_add_fmod (fs - 2048) sb
  have hdm2 : (fs - 2048).fdiv sb * sb + (fs - 2048).fmod sb = fs - 2048 := by
    rw [mul_comm] at hdm
    exact hdm
  have hm0 := Int.fmod_nonneg' (fs - 2048) h2
  have hml := Int.fmod_lt_of_pos (fs - 2048) h2
  have hceil : total_steps fs sb = ⌈((fs - 2048 : Int) : ℚ) / ((sb : Int) : ℚ)⌉ := by
    unfold total_steps
    by_cases hz : (fs - 2048).fmod sb = 0
    · rw [if_neg (by simp [hz])]
      have hfa : ((fs - 2048 : Int) : ℚ) = ((sb : Int) : ℚ) *
          (((fs - 2048).fdiv sb : Int) : ℚ) := by
        exact_mod_cast (by omega : fs - 2048 = sb * ((fs - 2048).fdiv sb))
      rw [hfa, mul_div_cancel_left₀ _ (ne_of_gt hbq), Int.ceil_intCast]
    · rw [if_pos hz]
      symm
      rw [Int.ceil_eq_iff]
      have hq1 : (fs - 2048).fdiv sb * sb < fs - 2048 := by omega
      have hq2 : fs - 2048 ≤ (fs - 2048).fdiv sb * sb + sb := by omega
      constructor
      · rw [lt_div_iff₀ hbq]
        have h1q : (((fs - 2048).fdiv sb * sb : Int) : ℚ) <
            ((fs - 2048 : Int) : ℚ) := by exact_mod_cast hq1
        push_cast at h1q ⊢
        nlinarith
      · rw [div_le_iff₀ hbq]
        have h2q : ((fs - 2048 : Int) : ℚ) ≤
            (((fs - 2048).fdiv sb * sb + sb : Int) : ℚ) := by exact_mod_cast hq2
        push_cast at h2q ⊢
        nlinarith
  refine ⟨hceil, ?_, fun i => rfl, by decide, by decide⟩
  rw [hceil]
  refine Int.ceil_pos.mpr (div_pos ?_ hbq)
  exact_mod_cast (by omega : (0 : Int) < fs - 2048)

/-- Witness for C7 at fileSize 3000, step 1024 bytes. -/
theorem total_steps_ceil_and_window_start_witness :
    total_steps 3000 1024 = ⌈((3000 - 2048 : Int) : ℚ) / ((1024 : Int) : ℚ)⌉ ∧
      0 < total_steps 3000 1024 :=
  ⟨(total_steps_ceil_and_window_start 3000 1024 (by decide) (by decide)).1,
    (total_steps_ceil_and_window_start 3000 1024 (by decide) (by decide)).2.1⟩

/-- Claim C8: the step-literal parser maps `"2KB"` to 2048 bytes, a bare
number such as `"512"` defaults to the KB unit yielding `512 * 1024`
bytes, and any input whose unit suffix is neither `"KB"` nor `"B"` is
rejected with an error, never silently coerced. -/
theorem parse_size_str_units :
    parse_size_str "2KB" = Except.ok 2048 ∧
      parse_size_str "512" = Except.ok (512 * 1024) ∧
      ∀ s n, parse_size_str s = Except.ok n →
        size_unit_of s = ['K', 'B'] ∨ size_unit_of s = ['B'] := by
  refine ⟨by decide, by decide, ?_⟩
  intro s n h
  unfold parse_size_str at h
  split at h
  · cases h
  · split at h
    · next h1 => exact Or.inl h1
    · split at h
      · next h2 => exact Or.inr h2
      · cases h

/-- Witness for C8 at the accepted input `"2KB"`. -/
theorem parse_size_str_units_witness :
    size_unit_of "2KB" = ['K', 'B'] ∨ size_unit_of "2KB" = ['B'] :=
  parse_size_str_units.2.2 "2KB" 2048 (by decide)

/-- Claim C9: for every run — completed or aborted midway — the size of
the target file after the run equals its size before it: mutation never
truncates or extends the file.  No hypotheses are needed: every path of
the embedded `corrupt_file` preserves the length. -/
theorem corrupt_file_preserves_length (f : List Nat) (step_kb destroy_bytes : Int)
    (make_backup : Bool) (oP : Nat → Nat) (oM : Nat → Nat → Nat → Nat)
    (fuel : Nat) :
    (corrupt_file f step_kb destroy_bytes make_backup oP oM fuel).file.length =
      f.length := by
  simp only [corrupt_file]
  by_cases hz : step_kb * 1024 = 0
  · rw [if_pos hz]
  · rw [if_neg hz]
    exact (run_from_frame _ 0 f rfl).1

/-- Claim C10, counterexample: an interrupt signal (`KeyboardInterrupt`
caught in `__main__`, main.py line 362) terminates with `sys.exit(1)`,
not with the zero exit status the claim asserts for every user
cancellation. -/
theorem interrupt_exit_code_counterexample :
    exit_code TermEvent.keyboardInterrupt ≠ 0 := by decide

/-- Claim C10 as amended: declining a confirmation prompt (either front
end, or the `--no-backup` warning) terminates with exit status zero, like
successful completion; but an interrupt signal exits with status 1, the
same status as the error paths. -/
theorem exit_codes_cancellation_vs_error :
    exit_code TermEvent.declinedConfirm = 0 ∧
      exit_code TermEvent.declinedNoBackup = 0 ∧
      exit_code TermEvent.interactiveDeclined = 0 ∧
      exit_code TermEvent.completed = 0 ∧
      exit_code TermEvent.keyboardInterrupt = 1 ∧
      exit_code TermEvent.fileNotFound = 1 ∧
      exit_code TermEvent.notAFile = 1 ∧
      exit_code TermEvent.invalidStep = 1 ∧
      exit_code TermEvent.invalidDestroy = 1 ∧
      exit_code TermEvent.interactiveError = 1 ∧
      exit_code TermEvent.uncaughtError = 1 := by
  decide
